import Mathlib

/-!
# Verification of the claim-kin-agent-attribution cryptographic subsystem

Shallow embedding, in Lean 4, of the security-critical parts of the
repository:

* the two in-repo Keccak-style sponge hash implementations
  (`keccak` in `find_solara_vaults.py` and `keccak256` in
  `scripts/scan_hyperliquid_vaults.py`),
* the claim-attestation verifier (`codex_enforce.py`),
* the signature-normalisation adapter (`examples/example_utils.py`),
* the pending-unsigned-actions registry (`hyperliquid/exchange.py`),
* the phantom-session builder (`hyperliquid_local/phantom_bot.py`).

Bytes are modelled as `List Nat` with every element `< 256`; 64-bit lanes
as `Nat` masked to `2 ^ 64 - 1` exactly where the Python source masks
(Python's unbounded ints behave identically on the values that arise).
-/

deriving instance DecidableEq for Except

namespace Attribution

/-- `MASK_64 = (1 << 64) - 1` from `find_solara_vaults.py`. -/
def MASK_64 : Nat := 2 ^ 64 - 1

/-- `ROUND_CONSTANTS` — identical 24-entry tables in
`find_solara_vaults.py` and `scripts/scan_hyperliquid_vaults.py`. -/
def ROUND_CONSTANTS : List Nat :=
  [0x0000000000000001,
   0x0000000000008082,
   0x800000000000808a,
   0x8000000080008000,
   0x000000000000808b,
   0x0000000080000001,
   0x8000000080008081,
   0x8000000000008009,
   0x000000000000008a,
   0x0000000000000088,
   0x0000000080008009,
   0x000000008000000a,
   0x000000008000808b,
   0x800000000000008b,
   0x8000000000008089,
   0x8000000000008003,
   0x8000000000008002,
   0x8000000000000080,
   0x000000000000800a,
   0x800000008000000a,
   0x8000000080008081,
   0x8000000000008080,
   0x0000000080000001,
   0x8000000080008008]

/-- `ROTATION_OFFSETS` in `find_solara_vaults.py` = `RHO_OFFSETS` in
`scripts/scan_hyperliquid_vaults.py` (identical 5×5 tables), indexed as
`table[x][y]`. -/
def ROTATION_OFFSETS : List (List Nat) :=
  [[0, 36, 3, 41, 18],
   [1, 44, 10, 45, 2],
   [62, 6, 43, 15, 61],
   [28, 55, 25, 21, 56],
   [27, 20, 39, 8, 14]]

/-- `_rotl64(value, shift) = ((value << shift) | (value >> (64 - shift))) & MASK_64`.
(The scan variant masks only the left summand; for `value < 2 ^ 64` the two
expressions coincide, since `value >> (64 - shift) < 2 ^ shift ≤ 2 ^ 64`.) -/
def _rotl64 (value shift : Nat) : Nat :=
  Nat.land (Nat.lor (value <<< shift) (value >>> (64 - shift))) MASK_64

/-- θ step of one round: `c`, `d`, and `state[idx] ^= d[idx % 5]`.
`(x - 1) % 5` on Python ints is `(x + 4) % 5` for `x ∈ [0, 5)`. -/
def thetaStep (state : List Nat) : List Nat :=
  let c := (List.range 5).map fun x =>
    Nat.xor (state.getD x 0) (Nat.xor (state.getD (x + 5) 0)
      (Nat.xor (state.getD (x + 10) 0)
        (Nat.xor (state.getD (x + 15) 0) (state.getD (x + 20) 0))))
  let d := (List.range 5).map fun x =>
    Nat.xor (c.getD ((x + 4) % 5) 0) (_rotl64 (c.getD ((x + 1) % 5) 0) 1)
  (List.range 25).map fun idx => Nat.xor (state.getD idx 0) (d.getD (idx % 5) 0)

/-- ρ and π steps: `b[y + 5*((2x + 3y) % 5)] = rotl64(state[x + 5y], offsets[x][y])`,
written as the source's nested `for x, for y` assignment loops into a
zero-initialised 25-entry buffer. -/
def rhoPiStep (state : List Nat) : List Nat :=
  (List.range 5).foldl
    (fun b x =>
      (List.range 5).foldl
        (fun b y =>
          b.set (y + 5 * ((2 * x + 3 * y) % 5))
            (_rotl64 (state.getD (x + 5 * y) 0)
              ((ROTATION_OFFSETS.getD x []).getD y 0)))
        b)
    (List.replicate 25 0)

/-- χ step: `state[idx] = b[idx] ^ ((~b[(x+1)%5 + 5y] & MASK_64) & b[(x+2)%5 + 5y])`.
Python's `~n & MASK_64` for `0 ≤ n < 2 ^ 64` is `MASK_64 XOR n` (bitwise
complement within 64 bits); the scan variant's unmasked `~b & other` agrees
because `other < 2 ^ 64`. -/
def chiStep (b : List Nat) : List Nat :=
  (List.range 25).map fun idx =>
    let x := idx % 5
    let y := idx / 5
    Nat.land
      (Nat.xor (b.getD idx 0)
        (Nat.land (Nat.xor MASK_64 (b.getD ((x + 1) % 5 + 5 * y) 0))
          (b.getD ((x + 2) % 5 + 5 * y) 0)))
      MASK_64

/-- ι step: `state[0] ^= rc; state[0] &= MASK_64`. -/
def iotaStep (state : List Nat) (rc : Nat) : List Nat :=
  state.set 0 (Nat.land (Nat.xor (state.getD 0 0) rc) MASK_64)

/-- `_keccak_f`: 24 rounds of θ, ρ/π, χ, ι, one per round constant.
Both source files implement exactly these rounds; the solara variant masks
with `& MASK_64` at every write and the scan variant only where Python's
`~` would otherwise leave 64 bits (the values coincide, see the step
comments). -/
def _keccak_f (state : List Nat) : List Nat :=
  ROUND_CONSTANTS.foldl (fun st rc => iotaStep (chiStep (rhoPiStep (thetaStep st))) rc) state

/-- `int.from_bytes(bs, "little")` for a byte list. -/
def fromLEBytes (bs : List Nat) : Nat :=
  bs.foldr (fun b acc => b + 256 * acc) 0

/-- `lane.to_bytes(8, "little")`. -/
def toLEBytes8 (lane : Nat) : List Nat :=
  (List.range 8).map fun i => lane / 256 ^ i % 256

/-- XOR one 136-byte rate block into the first seventeen lanes:
`state[i] ^= int.from_bytes(block[8i : 8i+8], "little")` for `i < 17`
(the solara variant additionally masks with `& MASK_64`, a no-op on
values `< 2 ^ 64`). -/
def absorbBlock (state : List Nat) (block : List Nat) : List Nat :=
  (List.range 17).foldl
    (fun st i =>
      st.set i
        (Nat.land (Nat.xor (st.getD i 0) (fromLEBytes ((block.drop (8 * i)).take 8)))
          MASK_64))
    state

/-- Split a byte list into consecutive 136-byte blocks, structurally
recursing on a fuel counter so the definition reduces in the kernel; each
step removes at least one byte, so `fuel = bs.length` always suffices. -/
def rateBlocksAux : Nat → List Nat → List (List Nat)
  | 0, _ => []
  | _ + 1, [] => []
  | fuel + 1, b :: bs => (b :: bs).take 136 :: rateBlocksAux fuel ((b :: bs).drop 136)

/-- Split a byte list into consecutive 136-byte blocks (its length is a
multiple of 136 at every call site). -/
def rateBlocks (bs : List Nat) : List (List Nat) :=
  rateBlocksAux bs.length bs

/-- Squeeze step shared by both sources: read the first seventeen lanes as
little-endian bytes (136 bytes) and keep the first 32.  In both sources
this sits in a `while len(out) < 32` loop that calls `_keccak_f` before
refilling, but `136 ≥ 32` means the loop body always completes on its
first pass, so the permutation inside the loop is dead code. -/
def squeeze32 (state : List Nat) : List Nat :=
  (((state.take 17).map toLEBytes8).flatten).take 32

/-- The padded byte stream built by `keccak` in `find_solara_vaults.py`
(lines 99–102): `padded = data + [0x01] + [0x00] * ((-len(data) - 2) % 136)
+ [0x80]`.  `(-(n) % 136)` in Python is `(136 - n % 136) % 136` for `n ≥ 0`. -/
def solaraPadded (data : List Nat) : List Nat :=
  data ++ [0x01] ++ List.replicate ((136 - (data.length + 2) % 136) % 136) 0 ++ [0x80]

/-- `keccak(data)` from `find_solara_vaults.py` (the `data=` input source;
the `text=`/`hexstr=` argument plumbing only converts those inputs to
bytes first and is not modelled): pad, absorb every 136-byte block,
squeeze 32 bytes. -/
def keccak (data : List Nat) : List Nat :=
  squeeze32 ((rateBlocks (solaraPadded data)).foldl
    (fun st block => _keccak_f (absorbBlock st block)) (List.replicate 25 0))

/-- The final padded block built by `keccak256` in
`scripts/scan_hyperliquid_vaults.py` (lines 108–111) from the remainder
left after all full 136-byte blocks are absorbed (`remainder.length ≤ 135`):
append `0x01`, zero-fill to 136 bytes, then `remainder[-1] ^= 0x80`. -/
def scanPadRemainder (remainder : List Nat) : List Nat :=
  let padded := remainder ++ 0x01 :: List.replicate (135 - remainder.length) 0
  padded.set 135 (Nat.xor (padded.getD 135 0) 0x80)

/-- `keccak256(data)` from `scripts/scan_hyperliquid_vaults.py`: absorb
each full 136-byte block (`while offset + 136 <= len(data)` consumes
exactly `len(data) / 136` blocks), then absorb the padded remainder, then
squeeze 32 bytes. -/
def keccak256 (data : List Nat) : List Nat :=
  let fullLen := 136 * (data.length / 136)
  let afterFull := (rateBlocks (data.take fullLen)).foldl
    (fun st block => _keccak_f (absorbBlock st block)) (List.replicate 25 0)
  squeeze32 (_keccak_f (absorbBlock afterFull (scanPadRemainder (data.drop fullLen))))

/-- The full byte stream `keccak256` absorbs: the full blocks of the input
followed by the padded remainder. -/
def scanAbsorbedStream (data : List Nat) : List Nat :=
  data.take (136 * (data.length / 136)) ++ scanPadRemainder (data.drop (136 * (data.length / 136)))

/-- The padding the specification describes (multi-rate `pad10*1`, stated
from the spec's words for comparison with the code): append a single
`0x01` byte, zero-pad to the next 136-byte rate boundary (zero bytes when
already on a boundary), then XOR `0x80` into the final byte of that padded
block. -/
def specPad (data : List Nat) : List Nat :=
  let t := data ++ [0x01]
  let padded := t ++ List.replicate ((136 - t.length % 136) % 136) 0
  padded.set (padded.length - 1) (Nat.xor (padded.getD (padded.length - 1) 0) 0x80)

/-- `pattern(L)`: the byte string whose `i`-th byte is `i % 256`. -/
def pattern (L : Nat) : List Nat :=
  (List.range L).map (· % 256)

/-- The all-zero initial sponge state (`state = [0] * 25`). -/
def initState : List Nat := List.replicate 25 0

/-- Absorb a whole padded byte stream block by block. -/
def spongeAbsorb (st : List Nat) (stream : List Nat) : List Nat :=
  (rateBlocks stream).foldl (fun s block => _keccak_f (absorbBlock s block)) st

/-- The published Keccak-256 digest of the empty string
(`c5d2…a470`, the well-known Ethereum empty hash). -/
def emptyKeccakDigest : List Nat :=
  [0xc5, 0xd2, 0x46, 0x01, 0x86, 0xf7, 0x23, 0x3c, 0x92, 0x7e, 0x7d, 0xb2,
   0xdc, 0xc7, 0x03, 0xc0, 0xe5, 0x00, 0xb6, 0x53, 0xca, 0x82, 0x27, 0x3b,
   0x7b, 0xfa, 0xd8, 0x04, 0x5d, 0x85, 0xa4, 0x70]

/-! ## Claim documents and canonical serialization (`codex_enforce.py`)

Python JSON values are modelled by `JsonVal`; Python floats by exact
rationals.  `dumpVal` embeds `json.dumps(·, sort_keys=True)` with its
default separators `", "` and `": "` and `ensure_ascii=True`. -/

/-- A Python JSON-like value.  Floats are modelled by exact rationals. -/
inductive JsonVal where
  | null
  | bool (b : Bool)
  | int (n : Int)
  | num (q : ℚ)
  | str (s : String)
  | arr (xs : List JsonVal)
  | obj (kvs : List (String × JsonVal))

/-- Four lowercase hex digits of `n < 0x10000`, as in Python's `\uXXXX`
escapes. -/
def hex4 (n : Nat) : String :=
  let dig := fun (d : Nat) =>
    if d < 10 then Char.ofNat (48 + d) else Char.ofNat (87 + d)
  String.mk [dig (n / 4096 % 16), dig (n / 256 % 16), dig (n / 16 % 16), dig (n % 16)]

/-- One character of a JSON string, escaped the way `json.dumps` (with its
default `ensure_ascii=True`) escapes it: `\"`, `\\`, the short control
escapes, and `\uXXXX` for the other control characters and for every
character above `0x7e`.  (Characters beyond `0xffff` would need surrogate
pairs; no claim exercises them.) -/
def escapeJsonChar (c : Char) : String :=
  if c = '"' then "\\\""
  else if c = '\\' then "\\\\"
  else if c = '\n' then "\\n"
  else if c = '\t' then "\\t"
  else if c = '\r' then "\\r"
  else if c.toNat = 8 then "\\b"
  else if c.toNat = 12 then "\\f"
  else if c.toNat < 32 || c.toNat > 126 then "\\u" ++ hex4 c.toNat
  else String.singleton c

/-- A JSON string literal as `json.dumps` renders it. -/
def quoteJsonString (s : String) : String :=
  "\"" ++ String.join (s.data.map escapeJsonChar) ++ "\""

/-- Python float rendering.  Integral floats print with a trailing `.0`;
the repr of non-integral floats is not modelled (no theorem depends on
it). -/
def dumpNum (q : ℚ) : String :=
  if q.den = 1 then toString q.num ++ ".0" else "<float repr not modelled>"

/-- Lexicographic code-point comparison of character lists — how Python
compares `str` values (used by `sorted`/`sort_keys`). -/
def charListLt : List Char → List Char → Bool
  | _, [] => false
  | [], _ :: _ => true
  | c :: cs, d :: ds =>
    if c.toNat < d.toNat then true
    else if d.toNat < c.toNat then false
    else charListLt cs ds

/-- Python `<` on strings. -/
def strLt (a b : String) : Bool :=
  charListLt a.data b.data

/-- Stable insertion into a key-sorted association list: the new pair goes
before any pair whose key is `≥` its own, matching the stability of
Python's `sorted`. -/
def insertByKey (p : String × JsonVal) : List (String × JsonVal) → List (String × JsonVal)
  | [] => [p]
  | q :: rest => if strLt q.1 p.1 then q :: insertByKey p rest else p :: q :: rest

/-- Sort an association list by key (lexicographic code-point order, as
Python compares `str`), stably — `sort_keys=True`. -/
def sortByKey : List (String × JsonVal) → List (String × JsonVal)
  | [] => []
  | p :: rest => insertByKey p (sortByKey rest)

mutual

/-- Structural size of a JSON value (counts every constructor), used as an
always-sufficient fuel bound for the serializer. -/
def sizeVal : JsonVal → Nat
  | .null => 1
  | .bool _ => 1
  | .int _ => 1
  | .num _ => 1
  | .str _ => 1
  | .arr xs => 1 + sizeArr xs
  | .obj kvs => 1 + sizeObj kvs

/-- Structural size of an array's members. -/
def sizeArr : List JsonVal → Nat
  | [] => 0
  | x :: rest => 1 + sizeVal x + sizeArr rest

/-- Structural size of an object's members. -/
def sizeObj : List (String × JsonVal) → Nat
  | [] => 0
  | kv :: rest => 1 + sizeVal kv.2 + sizeObj rest

end

/-- Join rendered items with `", "` — the default item separator of
`json.dumps`. -/
def joinCommaSpace : List String → String
  | [] => ""
  | [s] => s
  | s :: s' :: rest => s ++ ", " ++ joinCommaSpace (s' :: rest)

/-- `json.dumps(value, sort_keys=True)` on a fuel counter, so that the
definition is structurally recursive (the key sort sits between a value
and its sub-values) and reduces in the kernel.  Every recursive call
descends into a strict subterm of the original value (`sortByKey` merely
permutes the members), and each `JsonVal` constructor contributes at
least 1 to `sizeVal`, so `fuel = sizeVal v` in `dumpVal` always exceeds the
nesting depth and the fuel-exhausted branch is unreachable. -/
def dumpValF : Nat → JsonVal → String
  | 0, _ => ""
  | _ + 1, .null => "null"
  | _ + 1, .bool true => "true"
  | _ + 1, .bool false => "false"
  | _ + 1, .int n => toString n
  | _ + 1, .num q => dumpNum q
  | _ + 1, .str s => quoteJsonString s
  | fuel + 1, .arr xs => "[" ++ joinCommaSpace (xs.map (dumpValF fuel)) ++ "]"
  | fuel + 1, .obj kvs =>
    "\x7b" ++
      joinCommaSpace ((sortByKey kvs).map fun kv =>
        quoteJsonString kv.1 ++ ": " ++ dumpValF fuel kv.2) ++
    "\x7d"

/-- `json.dumps(value, sort_keys=True)`: sorted keys, default separators
(a space after every `,` and every `:`), `ensure_ascii` escapes. -/
def dumpVal (v : JsonVal) : String :=
  dumpValF (sizeVal v) v

/-- A claim payload: the top-level JSON object loaded from the claim file. -/
abbrev Payload := List (String × JsonVal)

/-- UTF-8 encoding of one character (`.encode("utf-8")`). -/
def utf8Char (c : Char) : List Nat :=
  let n := c.toNat
  if n < 0x80 then [n]
  else if n < 0x800 then [0xC0 + n / 64, 0x80 + n % 64]
  else if n < 0x10000 then [0xE0 + n / 4096, 0x80 + n / 64 % 64, 0x80 + n % 64]
  else [0xF0 + n / 262144, 0x80 + n / 4096 % 64, 0x80 + n / 64 % 64, 0x80 + n % 64]

/-- `s.encode("utf-8")` as a byte list. -/
def utf8Bytes (s : String) : List Nat :=
  (s.data.map utf8Char).flatten

/-- The byte string hashed by `_compute_claim_hash`:
`json.dumps(payload, sort_keys=True).encode("utf-8")`. -/
def claimHashInput (payload : Payload) : List Nat :=
  utf8Bytes (dumpVal (.obj payload))

/-- `_compute_claim_hash(payload)`: the hex digest of the canonical bytes
under SHA-256.  `hashlib.sha256` is an external library primitive, passed
in as `sha256hex`. -/
def _compute_claim_hash (sha256hex : List Nat → String) (payload : Payload) : String :=
  sha256hex (claimHashInput payload)

/-- The message text signed / recovered by `recover_signer`:
`encode_defunct(text=json.dumps(payload, sort_keys=True))`. -/
def recoverMessageText (payload : Payload) : String :=
  dumpVal (.obj payload)

/-- The whitespace characters Python's `str.strip()` removes, in the
ASCII range that occurs here: space (32), `\t` (9), `\n` (10), `\r` (13),
vertical tab (11), form feed (12).  Unicode whitespace beyond ASCII is
not modelled. -/
def isPyWhitespace (c : Char) : Bool :=
  c.toNat = 32 || c.toNat = 9 || c.toNat = 10 || c.toNat = 13 ||
    c.toNat = 11 || c.toNat = 12

/-- `s.strip()`: drop leading and trailing whitespace. -/
def pyStrip (cs : List Char) : List Char :=
  ((cs.dropWhile isPyWhitespace).reverse.dropWhile isPyWhitespace).reverse

/-- `.lower()` on one character (ASCII case mapping, the range exercised
by addresses and hex strings). -/
def pyCharLower (c : Char) : Char :=
  if 65 ≤ c.toNat ∧ c.toNat ≤ 90 then Char.ofNat (c.toNat + 32) else c

/-- Python `str.lower()`. -/
def pyLower (s : String) : String :=
  String.mk (s.data.map pyCharLower)

/-- Hex digit value of a character, if it is one (`bytes.fromhex`):
`0`–`9` (48–57), `a`–`f` (97–102), `A`–`F` (65–70). -/
def hexDigitVal (c : Char) : Option Nat :=
  if 48 ≤ c.toNat ∧ c.toNat ≤ 57 then some (c.toNat - 48)
  else if 97 ≤ c.toNat ∧ c.toNat ≤ 102 then some (c.toNat - 87)
  else if 65 ≤ c.toNat ∧ c.toNat ≤ 70 then some (c.toNat - 55)
  else none

/-- `bytes.fromhex` on a list of characters: consecutive pairs of hex
digits.  (Python additionally skips ASCII spaces between pairs; no call
site relies on that and it is not modelled.) -/
def bytesFromHexChars : List Char → Except String (List Nat)
  | [] => .ok []
  | [_] => .error "non-hexadecimal number found in fromhex() arg"
  | c₁ :: c₂ :: rest =>
    match hexDigitVal c₁, hexDigitVal c₂ with
    | some h, some l => (bytesFromHexChars rest).map fun bs => (16 * h + l) :: bs
    | _, _ => .error "non-hexadecimal number found in fromhex() arg"

/-- `signature[2:]` when `signature.startswith(("0x", "0X"))`, else the
string unchanged. -/
def stripHexPrefix (cs : List Char) : List Char :=
  match cs with
  | '0' :: 'x' :: rest => rest
  | '0' :: 'X' :: rest => rest
  | other => other

/-- `_normalise_signature(signature)` from `codex_enforce.py`: strip
surrounding whitespace, strip an optional `0x`/`0X` prefix, require
exactly 130 remaining characters (raising `ValueError` otherwise, before
any recovery), then decode the hex. -/
def _normalise_signature (signature : String) : Except String (List Nat) :=
  let unprefixed := stripHexPrefix (pyStrip signature.data)
  if unprefixed.length ≠ 130 then
    .error "Signatures must be 65 bytes expressed as 0x-prefixed hex"
  else bytesFromHexChars unprefixed

/-- `recover_signer(payload, signature)`: build the personal message from
the canonical serialization, normalise the signature, then run ECDSA
recovery.  `Account.recover_message` is an external primitive, passed in
as `recover` (a function of the message text and the 65 signature
bytes). -/
def recover_signer (recover : String → List Nat → String)
    (payload : Payload) (signature : String) : Except String String :=
  let message := recoverMessageText payload
  (_normalise_signature signature).map fun signatureBytes => recover message signatureBytes

/-- `verify_signature(payload, signature, expected_signer)`: recover, then
compare lower-cased addresses when an expectation is supplied. -/
def verify_signature (recover : String → List Nat → String) (payload : Payload)
    (signature : String) (expected_signer : Option String) : Except String (Bool × String) :=
  (recover_signer recover payload signature).map fun recovered =>
    match expected_signer with
    | none => (true, recovered)
    | some expected => (pyLower recovered == pyLower expected, recovered)

/-- `validate_hash(payload, hash_file)`: `none` models the `--hash-file`
option being absent; `some contents` models an existing file with the
given text (the `FileNotFoundError` branch for a missing path is not part
of any claim). -/
def validate_hash (sha256hex : List Nat → String) (payload : Payload)
    (hashFile : Option String) : Except String String :=
  let computed := _compute_claim_hash sha256hex payload
  match hashFile with
  | none => .ok computed
  | some contents =>
    let recorded := String.mk (pyStrip contents.data)
    if recorded ≠ "" ∧ recorded ≠ computed then
      .error "Hash file contents do not match the claim payload"
    else .ok (if recorded ≠ "" then recorded else computed)

/-! ### Claim C10 — `_ensure_total_owed` and the `main` pipeline -/

/-- `"key" in payload` for a Python dict modelled as an association list
(unique keys). -/
def containsKey (payload : Payload) (key : String) : Bool :=
  payload.any fun kv => kv.1 == key

/-- `payload.get(key)`: the first binding of `key`, if any. -/
def lookupKey : Payload → String → Option JsonVal
  | [], _ => none
  | kv :: rest, key => if kv.1 == key then some kv.2 else lookupKey rest key

/-- Python `float(value)` on the JSON values that occur in claim files:
numbers are exact, `bool` maps to 1/0.  `float` of a numeric *string*
parses it in Python; that case is not modelled (and not exercised by any
theorem), so it errors here, as the non-numeric cases do in Python. -/
def pyFloat : JsonVal → Except String ℚ
  | .int n => .ok (n : ℚ)
  | .num q => .ok q
  | .bool b => .ok (if b then 1 else 0)
  | .str _ => .error "float() on str not modelled"
  | .null => .error "TypeError: float() argument must not be None"
  | .arr _ => .error "TypeError: float() argument must not be a list"
  | .obj _ => .error "TypeError: float() argument must not be a dict"

/-- The accumulation loop of `_ensure_total_owed`:
`for key, value in flows.items(): if key not in rates: continue;
total += float(value) * float(rates[key])`. -/
def totalOwed (flows rates : List (String × JsonVal)) : Except String ℚ :=
  flows.foldlM
    (fun acc kv =>
      match lookupKey rates kv.1 with
      | none => .ok acc
      | some rateVal => do
        let v ← pyFloat kv.2
        let r ← pyFloat rateVal
        .ok (acc + v * r))
    (0 : ℚ)

/-- Python `round(total, 2)`: round half to even at two decimal places.
(Python rounds the IEEE-754 double; over the exact rationals used here
this is the round-half-even rule at two decimals.) -/
def pyRound2 (q : ℚ) : ℚ :=
  let scaled := q * 100
  let fl : ℤ := ⌊scaled⌋
  let n : ℤ :=
    if scaled - fl < 1 / 2 then fl
    else if 1 / 2 < scaled - fl then fl + 1
    else if fl % 2 = 0 then fl else fl + 1
  (n : ℚ) / 100

/-- `_ensure_total_owed(payload)` from `codex_enforce.py`: leave a payload
alone when it already has `"total_owed_usd"` or when either of
`"flow_estimates"`/`"royalty_rates"` is missing or not a mapping;
otherwise insert `total_owed_usd = round(total, 2)` (a new key appends at
the end, in Python dict insertion order). -/
def ensureTotalOwed (payload : Payload) : Except String Payload :=
  if containsKey payload "total_owed_usd" then .ok payload
  else
    match lookupKey payload "flow_estimates", lookupKey payload "royalty_rates" with
    | some (.obj flows), some (.obj rates) =>
      (totalOwed flows rates).map fun total =>
        payload ++ [("total_owed_usd", .num (pyRound2 total))]
    | _, _ => .ok payload

/-- The `main` pipeline of `codex_enforce.py` (lines 105–112): load the
payload, apply `_ensure_total_owed`, then compute/validate the claim hash
and verify the signature — both on the augmented payload. -/
def mainProcess (sha256hex : List Nat → String) (recover : String → List Nat → String)
    (payload : Payload) (signature : String) (hashFile : Option String)
    (expected : Option String) : Except String (String × (Bool × String)) := do
  let p ← ensureTotalOwed payload
  let hashValue ← validate_hash sha256hex p hashFile
  let verification ← verify_signature recover p signature expected
  .ok (hashValue, verification)

/-! ### Claim C8 — `_WalletAdapter.sign_message` (`examples/example_utils.py`) -/

/-- A duck-typed signing result object: flags record which attributes the
object exposes (`to_dict`, `r`, `s`, `v`); the value fields are only
meaningful when the corresponding flag is set. -/
structure SignedObj where
  hasToDict : Bool
  toDictVal : List (String × Nat)
  hasR : Bool
  hasS : Bool
  hasV : Bool
  rVal : Nat
  sVal : Nat
  vVal : Nat

/-- The possible raw values returned by a signing backend, as
`sign_message` distinguishes them: a `dict`, an arbitrary object
(inspected via `hasattr`), a `bytes`/`bytearray` blob, or anything else.
Dict/attribute values are modelled as integers, the type signature dicts
carry.  (The source checks `dict` → `to_dict` → `r`/`s`/`v` → `bytes` in
order; `bytes` objects expose none of the inspected attributes, so
listing the blob as its own constructor preserves the behaviour.) -/
inductive RawSignature where
  | dict (entries : List (String × Nat))
  | obj (o : SignedObj)
  | blob (bytes : List Nat)
  | otherVal (typeName : String)

/-- `int.from_bytes(bs, "big")`. -/
def beBytesToNat (bs : List Nat) : Nat :=
  bs.foldl (fun acc b => 256 * acc + b) 0

/-- `_WalletAdapter.sign_message` from `examples/example_utils.py`
(normalisation of the raw result of `self._account.sign_message`): a dict
is returned as-is; an object with `to_dict` yields `to_dict()`; an object
with all of `r`, `s`, `v` yields that record; a 65-byte blob is split
32/32/1 with the raw `v` byte taken as-is; a blob of any other length
raises `ValueError` and any other value raises `TypeError`. -/
def sign_message : RawSignature → Except String (List (String × Nat))
  | .dict entries => .ok entries
  | .obj o =>
    if o.hasToDict then .ok o.toDictVal
    else if o.hasR && o.hasS && o.hasV then
      .ok [("r", o.rVal), ("s", o.sVal), ("v", o.vVal)]
    else .error "TypeError: Unsupported signature type returned from sign_message"
  | .blob bytes =>
    if bytes.length ≠ 65 then
      .error "ValueError: Unexpected signature length returned from sign_message"
    else
      .ok [("r", beBytesToNat (bytes.take 32)),
           ("s", beBytesToNat ((bytes.drop 32).take 32)),
           ("v", bytes.getD 64 0)]
  | .otherVal _ => .error "TypeError: Unsupported signature type returned from sign_message"

/-- Whether a record carries all of the keys `r`, `s`, `v`. -/
def hasRSVKeys (entries : List (String × Nat)) : Bool :=
  (entries.any fun kv => kv.1 == "r") && (entries.any fun kv => kv.1 == "s") &&
    (entries.any fun kv => kv.1 == "v")

/-! ### Claim C9 — the pending-unsigned-actions registry
(`hyperliquid/exchange.py`) -/

/-- `self._unsigned_actions.setdefault(key, []).append(record)`: append to
the key's list, creating the key at the end of the dict (Python dict
insertion order) when absent.  The record type is a parameter — the claim
is about the registry mechanics, not the record contents. -/
def setdefaultAppend {α : Type} : List (String × List α) → String → α → List (String × List α)
  | [], key, record => [(key, [record])]
  | (k, rs) :: rest, key, record =>
    if k == key then (k, rs ++ [record]) :: rest
    else (k, rs) :: setdefaultAppend rest key record

/-- The registry effect of `Exchange.bulk_orders_tx` (the second, active
definition, lines 173–188): `owner_address = getattr(self.wallet,
"address", None) or self.account_address`; when that is truthy the record
is appended under `owner_address.lower()`, otherwise nothing is stored.
`none`/`""` model a missing or falsy attribute. -/
def recordUnsignedAction {α : Type} (reg : List (String × List α))
    (walletAddress accountAddress : Option String) (record : α) : List (String × List α) :=
  let ownerAddress :=
    match walletAddress with
    | some w => if w = "" then accountAddress else some w
    | none => accountAddress
  match ownerAddress with
  | none => reg
  | some owner => if owner = "" then reg else setdefaultAppend reg (pyLower owner) record

/-- `self._unsigned_actions.get(key, [])`-style lookup. -/
def lookupRegistry {α : Type} : List (String × List α) → String → Option (List α)
  | [], _ => none
  | (k, rs) :: rest, key => if k == key then some rs else lookupRegistry rest key

/-- `Exchange.pending_unsigned_actions(address)`: with no address, all
records over all keys (in dict order); with an address, the records under
`address.lower()`.  (`copy.copy` of each record dict is the identity in
this value model.) -/
def pending_unsigned_actions {α : Type} (reg : List (String × List α)) :
    Option String → List α
  | none => (reg.map Prod.snd).flatten
  | some address => (lookupRegistry reg (pyLower address)).getD []

/-- `Exchange.clear_unsigned_actions(address)`: clear everything, or
`pop(address.lower(), None)` (remove that key, keeping the others in
order). -/
def clear_unsigned_actions {α : Type} (reg : List (String × List α)) :
    Option String → List (String × List α)
  | none => []
  | some address => reg.filter fun kv => kv.1 != pyLower address

/-- The operations that mutate the registry. -/
inductive RegistryOp (α : Type) where
  | record (walletAddress accountAddress : Option String) (rec : α)
  | clearAll
  | clearOne (address : String)

/-- Apply one mutating operation. -/
def applyOp {α : Type} (reg : List (String × List α)) : RegistryOp α → List (String × List α)
  | .record w a rec => recordUnsignedAction reg w a rec
  | .clearAll => clear_unsigned_actions reg none
  | .clearOne address => clear_unsigned_actions reg (some address)

/-- Run a sequence of operations from the initial empty registry
(`self._unsigned_actions = {}`). -/
def applyOps {α : Type} (ops : List (RegistryOp α)) : List (String × List α) :=
  ops.foldl applyOp []

/-- Successive `bulk_orders_tx` calls for one fixed signer. -/
def applyRecords {α : Type} (reg : List (String × List α)) (owner : String)
    (recs : List α) : List (String × List α) :=
  recs.foldl (fun r x => recordUnsignedAction r (some owner) none x) reg

/-! ### Claim C3 — `prepare_phantom_session` (`hyperliquid_local/phantom_bot.py`)

`prepare_phantom_session` itself is in `src/`, but the helpers it imports
from `hyperliquid.utils.signing` (`action_hash`, `construct_phantom_agent`,
`l1_payload`) are not; those are modelled from the spec (§4.3–§4.4). -/

/-- `nonce.to_bytes(8, "big")`-style fixed-width big-endian encoding. -/
def beBytes8 (n : Nat) : List Nat :=
  (List.range 8).map fun i => n / 256 ^ (7 - i) % 256

/-- Modelled from the spec: `action_hash` from `hyperliquid.utils.signing`
(absent from `src/`).  §4.3: the byte layout is `action_bytes ||
nonce(8 bytes BE) || vault_presence_flag(1 byte) || [vault_address if
present] || expiry_presence_flag(1 byte) || [expires_after(8 bytes BE) if
present]`, with mandatory presence flags (0 = absent, 1 = present), hashed
with the HashEngine; the network discriminator is *not* an input.  The
action's canonical bytes (§4.2) are produced by the caller-supplied
`canon`. -/
def action_hash (actionBytes : List Nat) (nonce : Nat)
    (vaultAddress : Option (List Nat)) (expiresAfter : Option Nat) : List Nat :=
  keccak256
    (actionBytes ++ beBytes8 nonce ++
      (match vaultAddress with
       | none => [0x00]
       | some addr => 0x01 :: addr) ++
      (match expiresAfter with
       | none => [0x00]
       | some t => 0x01 :: beBytes8 t))

/-- Modelled from the spec: `construct_phantom_agent` from
`hyperliquid.utils.signing` (absent from `src/`).  §4.4 / §3: a
PhantomAgent is `{source: one-character network tag, connectionId:
ActionHash}` and the tag must differ between Mainnet and Testnet. -/
def construct_phantom_agent (hashBytes : List Nat) (isMainnet : Bool) : String × List Nat :=
  (if isMainnet then "a" else "b", hashBytes)

/-- The fixed structured-signing wrapper of §4.4. -/
structure TypedPayload where
  domainName : String
  domainVersion : String
  chainId : Nat
  verifyingContract : String
  message : String × List Nat

/-- Modelled from the spec: `l1_payload` from `hyperliquid.utils.signing`
(absent from `src/`).  §4.4: a fixed domain name/version, a fixed
non-routable verifying-contract placeholder and a fixed chain identifier
wrap the phantom agent so the wallet signs exactly
`{source, connectionId}`. -/
def l1_payload (phantomAgent : String × List Nat) : TypedPayload :=
  { domainName := "Exchange"
    domainVersion := "1"
    chainId := 1337
    verifyingContract := "0x0000000000000000000000000000000000000000"
    message := phantomAgent }

/-- The `PhantomBotSession` dataclass of
`hyperliquid_local/phantom_bot.py` (the JSON-rendering helpers
`as_dict`/`connection_id_hex` are presentation only and not modelled). -/
structure PhantomBotSession (A : Type) where
  action : A
  phantom_agent : String × List Nat
  typed_payload : TypedPayload
  action_hash_bytes : List Nat
  nonce : Nat
  vault_address : Option (List Nat)
  expires_after : Option Nat
  is_mainnet : Bool

/-- `prepare_phantom_session(action, vault_address, nonce, expires_after,
is_mainnet=...)` from `hyperliquid_local/phantom_bot.py`: hash the action
(`deepcopy` is the identity in this value model), wrap the hash in the
phantom agent, build the typed payload, and bundle everything.  The
action type and its canonicalisation are parameters (`A`, `canon`),
matching the claim's quantification over action dictionaries. -/
def prepare_phantom_session {A : Type} (canon : A → List Nat) (action : A)
    (vault_address : Option (List Nat)) (nonce : Nat) (expires_after : Option Nat)
    (is_mainnet : Bool) : PhantomBotSession A :=
  let hashBytes := action_hash (canon action) nonce vault_address expires_after
  let phantomAgent := construct_phantom_agent hashBytes is_mainnet
  { action := action
    phantom_agent := phantomAgent
    typed_payload := l1_payload phantomAgent
    action_hash_bytes := hashBytes
    nonce := nonce
    vault_address := vault_address
    expires_after := expires_after
    is_mainnet := is_mainnet }

set_option maxRecDepth 1000000

theorem keccak_eq_sponge (data : List Nat) :
    keccak data = squeeze32 (spongeAbsorb initState (solaraPadded data)) := rfl

theorem rateBlocksAux_congr (fuel : Nat) :
    ∀ (fuel' : Nat) (bs : List Nat), bs.length ≤ fuel → bs.length ≤ fuel' →
      rateBlocksAux fuel bs = rateBlocksAux fuel' bs := by
  induction fuel with
  | zero =>
    intro fuel' bs h _
    have hbs : bs = [] := List.eq_nil_of_length_eq_zero (Nat.le_zero.mp h)
    subst hbs
    cases fuel' <;> rfl
  | succ f ih =>
    intro fuel' bs h h'
    cases bs with
    | nil => cases fuel' <;> rfl
    | cons b tl =>
      cases fuel' with
      | zero => simp [List.length_cons] at h'
      | succ f' =>
        simp only [rateBlocksAux]
        congr 1
        apply ih f'
        · simp only [List.drop_succ_cons, List.length_drop, List.length_cons] at *
          omega
        · simp only [List.drop_succ_cons, List.length_drop, List.length_cons] at *
          omega

theorem rateBlocksAux_eq_rateBlocks (fuel : Nat) (bs : List Nat) (h : bs.length ≤ fuel) :
    rateBlocksAux fuel bs = rateBlocks bs :=
  rateBlocksAux_congr fuel bs.length bs h le_rfl

theorem rateBlocksAux_nil (fuel : Nat) : rateBlocksAux fuel [] = [] := by
  cases fuel <;> rfl

theorem rateBlocks_of_length_eq (ys : List Nat) (hy : ys.length = 136) :
    rateBlocks ys = [ys] := by
  cases ys with
  | nil => simp at hy
  | cons b tl =>
    have htl : tl.length = 135 := by
      simp only [List.length_cons] at hy
      omega
    have hdrop : (b :: tl).drop 136 = [] := by
      apply List.eq_nil_of_length_eq_zero
      simp [List.length_drop, htl]
    have htake : (b :: tl).take 136 = b :: tl :=
      List.take_of_length_le (by simp [htl])
    simp only [rateBlocks, List.length_cons, htl]
    show rateBlocksAux (135 + 1) (b :: tl) = [b :: tl]
    simp only [rateBlocksAux, htake, hdrop, rateBlocksAux_nil]

theorem rateBlocks_append_single (xs ys : List Nat)
    (hx : xs.length % 136 = 0) (hy : ys.length = 136) :
    rateBlocks (xs ++ ys) = rateBlocks xs ++ [ys] := by
  suffices H : ∀ (n : Nat) (xs : List Nat), xs.length ≤ n → xs.length % 136 = 0 →
      rateBlocks (xs ++ ys) = rateBlocks xs ++ [ys] from H xs.length xs le_rfl hx
  intro n
  induction n with
  | zero =>
    intro xs h _
    have hxs : xs = [] := List.eq_nil_of_length_eq_zero (Nat.le_zero.mp h)
    subst hxs
    simpa using rateBlocks_of_length_eq ys hy
  | succ n ih =>
    intro xs hlen hmod
    cases xs with
    | nil => simpa using rateBlocks_of_length_eq ys hy
    | cons b tl =>
      have hge : 136 ≤ (b :: tl).length := by
        simp only [List.length_cons] at hmod ⊢
        by_contra hlt
        push_neg at hlt
        have := Nat.mod_eq_of_lt hlt
        omega
      have htake : ((b :: tl) ++ ys).take 136 = (b :: tl).take 136 :=
        List.take_append_of_le_length hge
      have hdrop : ((b :: tl) ++ ys).drop 136 = (b :: tl).drop 136 ++ ys :=
        List.drop_append_of_le_length hge
      have hlen' : ((b :: tl).drop 136).length ≤ n := by
        simp only [List.length_drop, List.length_cons] at *
        omega
      have hmod' : ((b :: tl).drop 136).length % 136 = 0 := by
        simp only [List.length_drop]
        omega
      calc rateBlocks ((b :: tl) ++ ys)
          = ((b :: tl) ++ ys).take 136 ::
              rateBlocksAux (tl.length + ys.length) (((b :: tl) ++ ys).drop 136) := by
            simp [rateBlocks, rateBlocksAux, List.length_append]
        _ = (b :: tl).take 136 :: rateBlocks ((b :: tl).drop 136 ++ ys) := by
            rw [htake, hdrop]
            congr 1
            apply rateBlocksAux_eq_rateBlocks
            simp only [List.length_append, List.length_drop, List.length_cons]
            omega
        _ = (b :: tl).take 136 :: (rateBlocks ((b :: tl).drop 136) ++ [ys]) := by
            rw [ih ((b :: tl).drop 136) hlen' hmod']
        _ = rateBlocks (b :: tl) ++ [ys] := by
            have : rateBlocks (b :: tl)
                = (b :: tl).take 136 :: rateBlocks ((b :: tl).drop 136) := by
              simp only [rateBlocks, rateBlocksAux]
              congr 1
              apply rateBlocksAux_eq_rateBlocks
              simp only [List.length_drop, List.length_cons]
              omega
            rw [this]
            simp

theorem scanPadRemainder_length (r : List Nat) (h : r.length ≤ 135) :
    (scanPadRemainder r).length = 136 := by
  simp only [scanPadRemainder, List.length_set, List.length_append, List.length_cons,
    List.length_replicate]
  omega

/-- `keccak256` absorbs exactly the stream `scanAbsorbedStream`: the
two-phase loop (full blocks, then padded remainder) is the block-splitting
of the concatenated stream. -/
theorem keccak256_eq_sponge (data : List Nat) :
    keccak256 data = squeeze32 (spongeAbsorb initState (scanAbsorbedStream data)) := by
  have hx : (data.take (136 * (data.length / 136))).length % 136 = 0 := by
    simp only [List.length_take]
    rcases Nat.le_total (136 * (data.length / 136)) data.length with h | h
    · rw [min_eq_left h]
      simp [Nat.mul_mod_right]
    · rw [min_eq_right h]
      omega
  have hy : (scanPadRemainder (data.drop (136 * (data.length / 136)))).length = 136 := by
    apply scanPadRemainder_length
    simp only [List.length_drop]
    have hd := Nat.div_mul_le_self data.length 136
    have hm : data.length % 136 < 136 := Nat.mod_lt data.length (by norm_num)
    have heq := Nat.div_add_mod data.length 136
    omega
  simp only [keccak256, scanAbsorbedStream, spongeAbsorb, initState]
  rw [rateBlocks_append_single _ _ hx hy, List.foldl_append]
  simp only [List.foldl_cons, List.foldl_nil]

/-- If the two implementations absorb the same padded stream, their
digests agree. -/
theorem hash_eq_of_stream_eq (data : List Nat)
    (h : solaraPadded data = scanAbsorbedStream data) :
    keccak data = keccak256 data := by
  rw [keccak_eq_sponge, keccak256_eq_sponge, h]

/-- **C1.** The claim's padding description (append `0x01`, zero-pad to the
next 136-byte boundary, XOR `0x80` into the final byte — `specPad`) is
followed by `keccak256` but violated by `keccak` in
`find_solara_vaults.py`: on a 135-byte input, appending `0x01` lands
exactly on the rate boundary, so the claimed padding XORs `0x80` into that
same byte (one block ending `0x81`), while the code appends `0x80` as a new
byte after a further 135 zero bytes (two blocks).  The claim's edge cases
do hold: the empty input hashes successfully (both implementations return
the published Keccak-256 empty digest), and an input of exactly one rate
in length absorbs one full extra padding-only block. -/
theorem keccak_padding_bug_at_135 :
    keccak [] = emptyKeccakDigest ∧
    keccak256 [] = emptyKeccakDigest ∧
    solaraPadded (pattern 136) = pattern 136 ++ specPad [] ∧
    scanAbsorbedStream (pattern 136) = pattern 136 ++ specPad [] ∧
    (specPad []).length = 136 ∧
    scanAbsorbedStream (pattern 135) = specPad (pattern 135) ∧
    solaraPadded (pattern 135) ≠ specPad (pattern 135) :=
  ⟨by decide, by decide, by decide, by decide, by decide, by decide, by decide⟩

/-- **C2.** The two in-repo hash implementations agree on `pattern L` for
`L ∈ {0, 1, 31, 32, 136, 137, 200}` (they absorb identical padded streams
there), but **disagree** at `L = 135`, which the claim's length set
includes: `keccak` pads a 135-byte input into two 136-byte blocks while
`keccak256` pads it into one, so the digests differ. -/
theorem keccak_impls_agree_except_135 :
    keccak (pattern 0) = keccak256 (pattern 0) ∧
    keccak (pattern 1) = keccak256 (pattern 1) ∧
    keccak (pattern 31) = keccak256 (pattern 31) ∧
    keccak (pattern 32) = keccak256 (pattern 32) ∧
    keccak (pattern 136) = keccak256 (pattern 136) ∧
    keccak (pattern 137) = keccak256 (pattern 137) ∧
    keccak (pattern 200) = keccak256 (pattern 200) ∧
    keccak (pattern 135) ≠ keccak256 (pattern 135) :=
  ⟨hash_eq_of_stream_eq _ (by decide), hash_eq_of_stream_eq _ (by decide),
   hash_eq_of_stream_eq _ (by decide), hash_eq_of_stream_eq _ (by decide),
   hash_eq_of_stream_eq _ (by decide), hash_eq_of_stream_eq _ (by decide),
   hash_eq_of_stream_eq _ (by decide), by decide⟩

/-! ### Claims C4–C7 -/

/-- **C4, counterexample.** The canonical serialization is *not*
whitespace-free: `json.dumps` with its default separators renders
`{"b": 2, "a": 1}` (sorted) as `{"a": 1, "b": 2}`, which contains a space
after each `:` and `,` — whitespace that is insignificant to JSON. -/
theorem claim_serialization_contains_whitespace :
    dumpVal (.obj [("b", .int 2), ("a", .int 1)]) = "\x7b\"a\": 1, \"b\": 2\x7d" ∧
    ((dumpVal (.obj [("b", .int 2), ("a", .int 1)])).data.contains ' ') = true := by
  exact ⟨by decide, by decide⟩

/-- **C4, amended.** The byte string hashed by `_compute_claim_hash` and
the message text signed/recovered by `recover_signer` are the same
canonical serialization — `json.dumps(payload, sort_keys=True)` — for
every payload; that serialization, however, uses Python's default
separators and therefore contains a space after every `:` and `,`
(deterministic, but not whitespace-free). -/
theorem claim_hash_and_message_use_same_serialization :
    (∀ payload : Payload, claimHashInput payload = utf8Bytes (recoverMessageText payload)) ∧
    dumpVal (.obj [("a", .int 1)]) = "\x7b\"a\": 1\x7d" :=
  ⟨fun _ => rfl, by decide⟩

/-- **C5, counterexample.** A 130-hex-character string *without* a `0x`
prefix is accepted by `_normalise_signature` (the prefix is optional, not
required as the claim states): the all-`a` string of length 130 does not
start with `0x` yet normalises successfully to 65 bytes. -/
theorem normalise_signature_accepts_unprefixed :
    (_normalise_signature (String.mk (List.replicate 130 'a'))).isOk = true ∧
    (String.mk (List.replicate 130 'a')).data.take 2 = ['a', 'a'] :=
  ⟨by decide, by decide⟩

theorem pyStrip_eq_self_of_no_whitespace (cs : List Char)
    (h : ∀ c ∈ cs, isPyWhitespace c = false) : pyStrip cs = cs := by
  have hdrop : ∀ ds : List Char, (∀ c ∈ ds, isPyWhitespace c = false) →
      ds.dropWhile isPyWhitespace = ds := by
    intro ds hds
    cases ds with
    | nil => rfl
    | cons d rest => simp [List.dropWhile_cons, hds d (by simp)]
  unfold pyStrip
  rw [hdrop cs h, hdrop cs.reverse (by intro c hc; exact h c (List.mem_reverse.mp hc)),
    List.reverse_reverse]

theorem hexDigit_not_whitespace (c : Char) (h : (hexDigitVal c).isSome = true) :
    isPyWhitespace c = false := by
  unfold hexDigitVal at h
  unfold isPyWhitespace
  simp only [Bool.or_eq_false_iff, decide_eq_false_iff_not]
  split_ifs at h with h1 h2 h3
  · omega
  · omega
  · omega
  · simp at h

theorem hexDigit_not_prefix_char (c : Char) (h : (hexDigitVal c).isSome = true) :
    c ≠ 'x' ∧ c ≠ 'X' := by
  unfold hexDigitVal at h
  constructor
  · intro hx
    subst hx
    simp at h
  · intro hx
    subst hx
    simp at h

theorem stripHexPrefix_cons_x (cs : List Char) :
    stripHexPrefix ('0' :: 'x' :: cs) = cs := rfl

theorem stripHexPrefix_eq_self_of_hex (cs : List Char)
    (hhex : ∀ c ∈ cs, (hexDigitVal c).isSome = true) : stripHexPrefix cs = cs := by
  unfold stripHexPrefix
  split
  · exfalso
    have hx := hhex 'x' (by simp)
    simp [hexDigitVal] at hx
  · exfalso
    have hx := hhex 'X' (by simp)
    simp [hexDigitVal] at hx
  · rfl

theorem stripHexPrefix_eq_self_of_take (cs : List Char)
    (h1 : cs.take 2 ≠ ['0', 'x']) (h2 : cs.take 2 ≠ ['0', 'X']) :
    stripHexPrefix cs = cs := by
  unfold stripHexPrefix
  split
  · exfalso
    exact h1 rfl
  · exfalso
    exact h2 rfl
  · rfl

theorem bytesFromHexChars_ok (cs : List Char)
    (hhex : ∀ c ∈ cs, (hexDigitVal c).isSome = true) (heven : cs.length % 2 = 0) :
    (bytesFromHexChars cs).isOk = true := by
  suffices H : ∀ (n : Nat) (cs : List Char), cs.length ≤ n →
      (∀ c ∈ cs, (hexDigitVal c).isSome = true) → cs.length % 2 = 0 →
      (bytesFromHexChars cs).isOk = true from H cs.length cs le_rfl hhex heven
  intro n
  induction n with
  | zero =>
    intro cs h _ _
    have : cs = [] := List.eq_nil_of_length_eq_zero (Nat.le_zero.mp h)
    subst this
    rfl
  | succ n ih =>
    intro cs hlen hh heven
    match cs with
    | [] => rfl
    | [c] => simp at heven
    | c₁ :: c₂ :: rest =>
      obtain ⟨h₁, hv₁⟩ := Option.isSome_iff_exists.mp (hh c₁ (by simp))
      obtain ⟨h₂, hv₂⟩ := Option.isSome_iff_exists.mp (hh c₂ (by simp))
      have hrest : (bytesFromHexChars rest).isOk = true := by
        apply ih rest
        · simp only [List.length_cons] at hlen
          omega
        · intro c hc
          exact hh c (by simp [hc])
        · simp only [List.length_cons] at heven ⊢
          omega
      simp only [bytesFromHexChars, hv₁, hv₂]
      cases hres : bytesFromHexChars rest with
      | ok v => simp [Except.map, Except.isOk, Except.toBool]
      | error e =>
        rw [hres] at hrest
        simp [Except.isOk, Except.toBool] at hrest

/-- **C5, amended.** `_normalise_signature` accepts a signature exactly
when, after stripping surrounding whitespace and an *optional* `0x`/`0X`
prefix, exactly 130 hex characters remain (the prefix is not required as
the claim states); any other length fails with the `ValueError` before
ECDSA recovery is ever attempted (the result of `recover_signer` is then
a failure that does not depend on the recovery primitive at all). -/
theorem normalise_signature_length_gate :
    (∀ cs : List Char, (∀ c ∈ cs, (hexDigitVal c).isSome = true) → cs.length = 130 →
      (_normalise_signature (String.mk cs)).isOk = true ∧
      (_normalise_signature (String.mk ('0' :: 'x' :: cs))).isOk = true) ∧
    (∀ cs : List Char, (∀ c ∈ cs, isPyWhitespace c = false) →
      cs.take 2 ≠ ['0', 'x'] → cs.take 2 ≠ ['0', 'X'] → cs.length ≠ 130 →
      _normalise_signature (String.mk cs)
        = .error "Signatures must be 65 bytes expressed as 0x-prefixed hex") ∧
    (∀ (s e : String), _normalise_signature s = .error e →
      ∀ (payload : Payload) (rec₁ rec₂ : String → List Nat → String),
        recover_signer rec₁ payload s = recover_signer rec₂ payload s ∧
        recover_signer rec₁ payload s = .error e) := by
  refine ⟨?_, ?_, ?_⟩
  · intro cs hhex hlen
    have hnw : ∀ c ∈ cs, isPyWhitespace c = false :=
      fun c hc => hexDigit_not_whitespace c (hhex c hc)
    have hok : (bytesFromHexChars cs).isOk = true :=
      bytesFromHexChars_ok cs hhex (by omega)
    constructor
    · unfold _normalise_signature
      simp only [pyStrip_eq_self_of_no_whitespace cs hnw, stripHexPrefix_eq_self_of_hex cs hhex,
        hlen]
      simpa using hok
    · unfold _normalise_signature
      have hnw' : ∀ c ∈ '0' :: 'x' :: cs, isPyWhitespace c = false := by
        intro c hc
        rcases hc with _ | ⟨_, hc⟩
        · rfl
        · rcases hc with _ | ⟨_, hc⟩
          · rfl
          · exact hnw c hc
      simp only [pyStrip_eq_self_of_no_whitespace _ hnw', stripHexPrefix_cons_x, hlen]
      simpa using hok
  · intro cs hnw h1 h2 hne
    unfold _normalise_signature
    simp only [pyStrip_eq_self_of_no_whitespace cs hnw,
      stripHexPrefix_eq_self_of_take cs h1 h2]
    simp [hne]
  · intro s e herr payload rec₁ rec₂
    unfold recover_signer
    rw [herr]
    exact ⟨rfl, rfl⟩

/-- Witness for `normalise_signature_length_gate` at concrete inputs: 130
`'a'`s are accepted with and without the `0x` prefix, and the short
string `"0xabc"` is rejected with the `ValueError` and never reaches the
recovery oracle. -/
theorem normalise_signature_length_gate_witness :
    ((_normalise_signature (String.mk (List.replicate 130 'a'))).isOk = true ∧
      (_normalise_signature (String.mk ('0' :: 'x' :: List.replicate 130 'a'))).isOk = true) ∧
    _normalise_signature (String.mk ['a', 'b', 'c'])
      = .error "Signatures must be 65 bytes expressed as 0x-prefixed hex" ∧
    recover_signer (fun _ _ => "first") [] "0xabc"
      = recover_signer (fun _ _ => "second") [] "0xabc" :=
  ⟨normalise_signature_length_gate.1 (List.replicate 130 'a') (by decide) (by decide),
   normalise_signature_length_gate.2.1 ['a', 'b', 'c'] (by decide) (by decide) (by decide)
     (by decide),
   (normalise_signature_length_gate.2.2 "0xabc"
     "Signatures must be 65 bytes expressed as 0x-prefixed hex" rfl []
     (fun _ _ => "first") (fun _ _ => "second")).1⟩

/-- **C6.** For every payload and every well-formed signature (one the
normaliser accepts), `verify_signature` returns `(true, recovered)` when
no expected signer is supplied, and
`(recovered.lower() == expected.lower(), recovered)` when one is; in
particular a recovered address that differs from the expectation
(case-insensitively) yields the boolean `false` inside a successful
result — never an exception. -/
theorem verify_signature_spec (recover : String → List Nat → String) (payload : Payload)
    (sig : String) (bs : List Nat) (h : _normalise_signature sig = .ok bs) :
    verify_signature recover payload sig none
      = .ok (true, recover (recoverMessageText payload) bs) ∧
    (∀ expected, verify_signature recover payload sig (some expected)
      = .ok (pyLower (recover (recoverMessageText payload) bs) == pyLower expected,
             recover (recoverMessageText payload) bs)) ∧
    (∀ expected,
      pyLower (recover (recoverMessageText payload) bs) ≠ pyLower expected →
      verify_signature recover payload sig (some expected)
        = .ok (false, recover (recoverMessageText payload) bs)) := by
  have hrec : recover_signer recover payload sig
      = .ok (recover (recoverMessageText payload) bs) := by
    unfold recover_signer
    rw [h]
    rfl
  refine ⟨?_, ?_, ?_⟩
  · unfold verify_signature
    rw [hrec]
    rfl
  · intro expected
    unfold verify_signature
    rw [hrec]
    rfl
  · intro expected hne
    unfold verify_signature
    rw [hrec]
    simp only [Except.map]
    congr 2
    exact beq_eq_false_iff_ne.mpr hne

/-- Witness for `verify_signature_spec`: a concrete 65-byte signature, a
recovery oracle returning `"0xAB"`, and the mismatching expectation
`"0xcd"` produce `(false, "0xAB")` without an exception, while the
matching lower-case expectation `"0xab"` produces `true`. -/
theorem verify_signature_spec_witness :
    _normalise_signature (String.mk ('0' :: 'x' :: List.replicate 130 'a'))
      = .ok (List.replicate 65 170) ∧
    verify_signature (fun _ _ => "0xAB") [("k", .int 1)]
      (String.mk ('0' :: 'x' :: List.replicate 130 'a')) none = .ok (true, "0xAB") ∧
    verify_signature (fun _ _ => "0xAB") [("k", .int 1)]
      (String.mk ('0' :: 'x' :: List.replicate 130 'a')) (some "0xcd")
      = .ok (false, "0xAB") :=
  ⟨rfl,
   (verify_signature_spec (fun _ _ => "0xAB") [("k", .int 1)]
     (String.mk ('0' :: 'x' :: List.replicate 130 'a')) (List.replicate 65 170)
     rfl).1,
   (verify_signature_spec (fun _ _ => "0xAB") [("k", .int 1)]
     (String.mk ('0' :: 'x' :: List.replicate 130 'a')) (List.replicate 65 170)
     rfl).2.2 "0xcd" (by decide)⟩

/-- **C7.** `validate_hash` with no hash file returns the freshly computed
digest without error; with an existing hash file it fails exactly when the
file's whitespace-stripped contents are non-empty and differ from the
freshly computed digest (so a disagreement is always surfaced, never
repaired), and on success it returns the recorded hash when one was
present, else the computed one. -/
theorem validate_hash_spec (sha256hex : List Nat → String) (payload : Payload)
    (contents : String) :
    validate_hash sha256hex payload none = .ok (_compute_claim_hash sha256hex payload) ∧
    ((validate_hash sha256hex payload (some contents)).isOk = false ↔
      (String.mk (pyStrip contents.data) ≠ "" ∧
       String.mk (pyStrip contents.data) ≠ _compute_claim_hash sha256hex payload)) ∧
    (String.mk (pyStrip contents.data) = _compute_claim_hash sha256hex payload →
      validate_hash sha256hex payload (some contents)
        = .ok (_compute_claim_hash sha256hex payload)) := by
  refine ⟨rfl, ?_, ?_⟩
  · unfold validate_hash
    by_cases hcond : String.mk (pyStrip contents.data) ≠ "" ∧
        String.mk (pyStrip contents.data) ≠ _compute_claim_hash sha256hex payload
    · simp only [hcond, if_pos]
      simp [Except.isOk, Except.toBool, hcond]
    · simp only [if_neg hcond]
      simp [Except.isOk, Except.toBool, hcond]
  · intro heq
    unfold validate_hash
    have hcond : ¬ (String.mk (pyStrip contents.data) ≠ "" ∧
        String.mk (pyStrip contents.data) ≠ _compute_claim_hash sha256hex payload) := by
      intro hc
      exact hc.2 heq
    simp only [if_neg hcond]
    by_cases hemp : String.mk (pyStrip contents.data) = ""
    · simp [hemp]
    · simp [hemp, heq]

/-- Witness for `validate_hash_spec`: with the constant digest function
`fun _ => "ff"`, an absent hash file returns `"ff"`, a matching recorded
file `" ff "` (surrounding whitespace stripped) also returns `"ff"`, and
a disagreeing recorded file `"00"` fails. -/
theorem validate_hash_spec_witness :
    validate_hash (fun _ => "ff") [] none = .ok "ff" ∧
    validate_hash (fun _ => "ff") [] (some " ff ") = .ok "ff" ∧
    (validate_hash (fun _ => "ff") [] (some "00")).isOk = false :=
  ⟨(validate_hash_spec (fun _ => "ff") [] "").1,
   (validate_hash_spec (fun _ => "ff") [] " ff ").2.2 (by decide),
   ((validate_hash_spec (fun _ => "ff") [] "00").2.1).mpr ⟨by decide, by decide⟩⟩

/-- **C10.** Before the claim hash is computed or the signer recovered,
`main` augments the loaded payload: a payload lacking `"total_owed_usd"`
but carrying mapping-valued `"flow_estimates"` and `"royalty_rates"` gets
`total_owed_usd = round(Σ flow·rate over shared keys, 2)` appended, and
the hash and the recovery message are computed over this augmented
payload; a payload that already has the key, or lacks either mapping, is
left unchanged. -/
theorem ensure_total_owed_augments_before_hashing
    (sha256hex : List Nat → String) (recover : String → List Nat → String)
    (payload : Payload) (flows rates : List (String × JsonVal)) (total : ℚ)
    (signature : String) (hashFile : Option String) (expected : Option String)
    (hmiss : containsKey payload "total_owed_usd" = false)
    (hf : lookupKey payload "flow_estimates" = some (.obj flows))
    (hr : lookupKey payload "royalty_rates" = some (.obj rates))
    (ht : totalOwed flows rates = .ok total) :
    ensureTotalOwed payload
      = .ok (payload ++ [("total_owed_usd", .num (pyRound2 total))]) ∧
    mainProcess sha256hex recover payload signature hashFile expected
      = (do
          let hashValue ← validate_hash sha256hex
            (payload ++ [("total_owed_usd", .num (pyRound2 total))]) hashFile
          let verification ← verify_signature recover
            (payload ++ [("total_owed_usd", .num (pyRound2 total))]) signature expected
          Except.ok (hashValue, verification)) ∧
    (∀ q : Payload, containsKey q "total_owed_usd" = true → ensureTotalOwed q = .ok q) ∧
    (∀ q : Payload, containsKey q "total_owed_usd" = false →
      (∀ kvs, lookupKey q "flow_estimates" ≠ some (.obj kvs)) →
      ensureTotalOwed q = .ok q) ∧
    (∀ q : Payload, containsKey q "total_owed_usd" = false →
      (∀ kvs, lookupKey q "royalty_rates" ≠ some (.obj kvs)) →
      ensureTotalOwed q = .ok q) := by
  have hmain : ensureTotalOwed payload
      = .ok (payload ++ [("total_owed_usd", .num (pyRound2 total))]) := by
    unfold ensureTotalOwed
    rw [hmiss, hf, hr]
    simp only [Bool.false_eq_true, if_false, ht, Except.map]
  refine ⟨hmain, ?_, ?_, ?_, ?_⟩
  · unfold mainProcess
    rw [hmain]
    rfl
  · intro q hq
    unfold ensureTotalOwed
    rw [hq]
    rfl
  · intro q hq hflow
    unfold ensureTotalOwed
    rw [hq]
    simp only [Bool.false_eq_true, if_false]
    split
    · rename_i flows' rates' heq _
      exact absurd heq (hflow flows')
    · rfl
  · intro q hq hrate
    unfold ensureTotalOwed
    rw [hq]
    simp only [Bool.false_eq_true, if_false]
    split
    · rename_i flows' rates' _ heq
      exact absurd heq (hrate rates')
    · rfl

/-- Witness for `ensure_total_owed_augments_before_hashing`: a payload
with flows `{"hlp": 10}` and rates `{"hlp": 1/4}` gains
`total_owed_usd = 2.5`. -/
theorem ensure_total_owed_witness :
    ensureTotalOwed
      [("claimant", .str "codex"),
       ("flow_estimates", .obj [("hlp", .num 10)]),
       ("royalty_rates", .obj [("hlp", .num (1 / 4))])]
      = .ok
        [("claimant", .str "codex"),
         ("flow_estimates", .obj [("hlp", .num 10)]),
         ("royalty_rates", .obj [("hlp", .num (1 / 4))]),
         ("total_owed_usd", .num (pyRound2 (5 / 2)))] :=
  (ensure_total_owed_augments_before_hashing (fun _ => "") (fun _ _ => "")
    [("claimant", .str "codex"),
     ("flow_estimates", .obj [("hlp", .num 10)]),
     ("royalty_rates", .obj [("hlp", .num (1 / 4))])]
    [("hlp", .num 10)] [("hlp", .num (1 / 4))] (5 / 2) "" none none
    (by decide) rfl rfl
    (by simp only [totalOwed, List.foldlM, lookupKey, pyFloat, Except.bind, Bind.bind,
          Pure.pure]
        norm_num [Except.pure])).1

/-- **C8, counterexample.** `sign_message` is *not* restricted to the
claim's three shapes, and does not always produce an `{r, s, v}` record:
a mapping *without* `r`/`s`/`v` is returned unchanged (no error), and an
object exposing `to_dict` — a fourth shape the claim omits — is accepted
with whatever `to_dict()` returns. -/
theorem sign_message_accepts_dict_without_rsv :
    sign_message (.dict [("foo", 1)]) = .ok [("foo", 1)] ∧
    hasRSVKeys [("foo", 1)] = false ∧
    sign_message (.obj ⟨true, [("bar", 2)], false, false, false, 0, 0, 0⟩)
      = .ok [("bar", 2)] :=
  ⟨rfl, by decide, rfl⟩

/-- **C8, amended.** `sign_message` accepts exactly: any mapping (returned
unchanged, its contents unchecked), any object exposing `to_dict` (its
result returned unchanged), an object exposing all of `r`/`s`/`v`
(normalised to that record), and a 65-byte blob split as 32-byte `r`,
32-byte `s`, 1-byte `v` with the raw `v` byte taken as-is; blobs of any
other length fail with `ValueError` and all other values fail with
`TypeError` — nothing outside these shapes is silently coerced. -/
theorem sign_message_shape_spec :
    (∀ entries, sign_message (.dict entries) = .ok entries) ∧
    (∀ o : SignedObj, o.hasToDict = true → sign_message (.obj o) = .ok o.toDictVal) ∧
    (∀ o : SignedObj, o.hasToDict = false → o.hasR = true → o.hasS = true → o.hasV = true →
      sign_message (.obj o) = .ok [("r", o.rVal), ("s", o.sVal), ("v", o.vVal)]) ∧
    (∀ o : SignedObj, o.hasToDict = false → (o.hasR && o.hasS && o.hasV) = false →
      sign_message (.obj o)
        = .error "TypeError: Unsupported signature type returned from sign_message") ∧
    (∀ bytes : List Nat, bytes.length = 65 →
      sign_message (.blob bytes)
        = .ok [("r", beBytesToNat (bytes.take 32)),
               ("s", beBytesToNat ((bytes.drop 32).take 32)),
               ("v", bytes.getD 64 0)]) ∧
    (∀ bytes : List Nat, bytes.length ≠ 65 →
      sign_message (.blob bytes)
        = .error "ValueError: Unexpected signature length returned from sign_message") ∧
    (∀ typeName, sign_message (.otherVal typeName)
      = .error "TypeError: Unsupported signature type returned from sign_message") := by
  refine ⟨fun _ => rfl, ?_, ?_, ?_, ?_, ?_, fun _ => rfl⟩
  · intro o h
    simp [sign_message, h]
  · intro o h hr hs hv
    simp [sign_message, h, hr, hs, hv]
  · intro o h hrsv
    simp [sign_message, h, hrsv]
  · intro bytes h
    simp [sign_message, h]
  · intro bytes h
    simp [sign_message, h]

/-- Witness for `sign_message_shape_spec`: a concrete r/s/v object and
concrete blobs of length 65 and 3. -/
theorem sign_message_shape_spec_witness :
    sign_message (.obj ⟨false, [], true, true, true, 5, 6, 27⟩)
      = .ok [("r", 5), ("s", 6), ("v", 27)] ∧
    sign_message (.blob (List.replicate 65 1))
      = .ok [("r", beBytesToNat (List.replicate 32 1)),
             ("s", beBytesToNat (List.replicate 32 1)), ("v", 1)] ∧
    sign_message (.blob [1, 2, 3])
      = .error "ValueError: Unexpected signature length returned from sign_message" :=
  ⟨sign_message_shape_spec.2.2.1 ⟨false, [], true, true, true, 5, 6, 27⟩ rfl rfl rfl rfl,
   by
    have h := sign_message_shape_spec.2.2.2.2.1 (List.replicate 65 1) (by decide)
    rw [h]
    decide,
   sign_message_shape_spec.2.2.2.2.2.1 [1, 2, 3] (by decide)⟩

theorem setdefaultAppend_keys {α : Type} (reg : List (String × List α)) (key : String)
    (record : α) :
    ∀ kv ∈ setdefaultAppend reg key record, kv.1 = key ∨ ∃ kv' ∈ reg, kv.1 = kv'.1 := by
  induction reg with
  | nil =>
    intro kv hkv
    simp only [setdefaultAppend, List.mem_singleton] at hkv
    subst hkv
    exact Or.inl rfl
  | cons hd tl ih =>
    intro kv hkv
    obtain ⟨k, rs⟩ := hd
    simp only [setdefaultAppend] at hkv
    by_cases hk : k == key
    · rw [if_pos hk] at hkv
      rcases List.mem_cons.mp hkv with h | h
      · subst h
        exact Or.inr ⟨(k, rs), by simp⟩
      · exact Or.inr ⟨kv, by simp [h]⟩
    · rw [if_neg hk] at hkv
      rcases List.mem_cons.mp hkv with h | h
      · subst h
        exact Or.inr ⟨(k, rs), by simp⟩
      · rcases ih kv h with h' | ⟨kv', hkv', he⟩
        · exact Or.inl h'
        · exact Or.inr ⟨kv', by simp [hkv'], he⟩

theorem lookupRegistry_setdefaultAppend {α : Type} (reg : List (String × List α))
    (key : String) (record : α) :
    lookupRegistry (setdefaultAppend reg key record) key
      = some ((lookupRegistry reg key).getD [] ++ [record]) := by
  induction reg with
  | nil => simp [setdefaultAppend, lookupRegistry]
  | cons hd tl ih =>
    obtain ⟨k, rs⟩ := hd
    by_cases hk : k == key
    · simp only [setdefaultAppend, if_pos hk, lookupRegistry, hk, if_pos]
      simp at hk
      simp [lookupRegistry, hk]
    · simp only [setdefaultAppend, if_neg hk, lookupRegistry, hk, if_neg]
      rw [ih]
      simp only [Bool.not_eq_true] at hk
      simp [lookupRegistry, hk]

/-- **C9.** Every key the registry ever holds (starting from the empty
registry, under any sequence of record/clear operations) is the
lower-casing of some signer address; `pending_unsigned_actions` and
`clear_unsigned_actions` treat addresses case-insensitively (two spellings
with equal lower-casings behave identically); and for a fixed signer,
successive `bulk_orders_tx` calls append records that
`pending_unsigned_actions` returns in exactly the order of the calls. -/
theorem unsigned_actions_registry_spec (α : Type) :
    (∀ ops : List (RegistryOp α), ∀ kv ∈ applyOps ops, ∃ s, kv.1 = pyLower s) ∧
    (∀ (reg : List (String × List α)) (a b : String), pyLower a = pyLower b →
      pending_unsigned_actions reg (some a) = pending_unsigned_actions reg (some b) ∧
      clear_unsigned_actions reg (some a) = clear_unsigned_actions reg (some b)) ∧
    (∀ (reg : List (String × List α)) (owner : String), owner ≠ "" →
      ∀ recs : List α,
        pending_unsigned_actions (applyRecords reg owner recs) (some owner)
          = pending_unsigned_actions reg (some owner) ++ recs) := by
  refine ⟨?_, ?_, ?_⟩
  · intro ops
    suffices H : ∀ (reg : List (String × List α)),
        (∀ kv ∈ reg, ∃ s, kv.1 = pyLower s) →
        ∀ kv ∈ ops.foldl applyOp reg, ∃ s, kv.1 = pyLower s from
      fun kv hkv => H [] (by simp) kv hkv
    induction ops with
    | nil => intro reg hreg kv hkv; exact hreg kv hkv
    | cons op rest ih =>
      intro reg hreg kv hkv
      refine ih (applyOp reg op) ?_ kv hkv
      intro kv' hkv'
      match op with
      | .clearAll => simp [applyOp, clear_unsigned_actions] at hkv'
      | .clearOne address =>
        simp only [applyOp, clear_unsigned_actions] at hkv'
        exact hreg kv' (List.mem_of_mem_filter hkv')
      | .record w a rec =>
        simp only [applyOp, recordUnsignedAction] at hkv'
        rcases hw : (match w with
            | some w' => if w' = "" then a else some w'
            | none => a) with _ | owner
        · simp only [hw] at hkv'
          exact hreg kv' hkv'
        · simp only [hw] at hkv'
          by_cases howner : owner = ""
          · rw [if_pos howner] at hkv'
            exact hreg kv' hkv'
          · rw [if_neg howner] at hkv'
            rcases setdefaultAppend_keys reg (pyLower owner) rec kv' hkv' with h | ⟨kv'', hm, he⟩
            · exact ⟨owner, h⟩
            · rw [he]
              exact hreg kv'' hm
  · intro reg a b hab
    constructor
    · simp [pending_unsigned_actions, hab]
    · simp [clear_unsigned_actions, hab]
  · intro reg owner howner recs
    induction recs generalizing reg with
    | nil => simp [applyRecords, pending_unsigned_actions]
    | cons r rest ih =>
      have hstep : recordUnsignedAction reg (some owner) none r
          = setdefaultAppend reg (pyLower owner) r := by
        simp [recordUnsignedAction, howner]
      have h1 : applyRecords reg owner (r :: rest)
          = applyRecords (setdefaultAppend reg (pyLower owner) r) owner rest := by
        simp [applyRecords, hstep]
      rw [h1, ih]
      simp only [pending_unsigned_actions, lookupRegistry_setdefaultAppend]
      simp

/-- Witness for `unsigned_actions_registry_spec` at concrete data: the
key stored for signer `"0xAbC"` is `"0xabc"`; `"0xABC"` and `"0xAbc"` read
the same slot; and three successive records for `"0xAb"` come back in
call order. -/
theorem unsigned_actions_registry_spec_witness :
    (applyOps [RegistryOp.record (some "0xAbC") none (7 : Nat)] = [("0xabc", [7])]) ∧
    pending_unsigned_actions [("0xabc", [(7 : Nat)])] (some "0xABC")
      = pending_unsigned_actions [("0xabc", [(7 : Nat)])] (some "0xAbc") ∧
    pending_unsigned_actions (applyRecords ([] : List (String × List Nat)) "0xAb" [1, 2, 3])
      (some "0xAb")
      = pending_unsigned_actions ([] : List (String × List Nat)) (some "0xAb") ++ [1, 2, 3] :=
  ⟨by decide,
   ((unsigned_actions_registry_spec Nat).2.1 [("0xabc", [7])] "0xABC" "0xAbc" (by decide)).1,
   (unsigned_actions_registry_spec Nat).2.2 [] "0xAb" (by decide) [1, 2, 3]⟩

/-- **C3.** For every action, optional vault address, nonce and optional
expiry, `prepare_phantom_session` with `is_mainnet = true` and with
`is_mainnet = false` produce the same `action_hash_bytes` (and the same
`connectionId` inside the phantom agent); the network discriminator
changes only the phantom agent's one-character `source` tag, one layer
above the hash. -/
theorem prepare_phantom_session_hash_network_independent
    (A : Type) (canon : A → List Nat) (action : A) (vault_address : Option (List Nat))
    (nonce : Nat) (expires_after : Option Nat) :
    (prepare_phantom_session canon action vault_address nonce expires_after true).action_hash_bytes
      = (prepare_phantom_session canon action vault_address nonce
          expires_after false).action_hash_bytes ∧
    (prepare_phantom_session canon action vault_address nonce expires_after true).phantom_agent.2
      = (prepare_phantom_session canon action vault_address nonce
          expires_after false).phantom_agent.2 ∧
    (prepare_phantom_session canon action vault_address nonce expires_after
        true).action_hash_bytes
      = action_hash (canon action) nonce vault_address expires_after ∧
    (prepare_phantom_session canon action vault_address nonce expires_after
        true).phantom_agent.1 = "a" ∧
    (prepare_phantom_session canon action vault_address nonce expires_after
        false).phantom_agent.1 = "b" :=
  ⟨rfl, rfl, rfl, rfl, rfl⟩

end Attribution
